import Mathlib

/-
Verification development for the ReadQueue group-reading client.

Shallow embedding of:
  * `AudioManager` (WebRTC peer-mesh manager), from frontend/src/utils/AudioManager.js
  * the `HomePage` turn-coordinator client (queue-status polling, auto-skip timer,
    mute gating), from frontend/src/pages/HomePage.js
  * the `HomePage` variant with a Position-2 get-ready timer (startPosition2Timer).

Conventions of the embedding:
  * JS objects keyed by session id are association lists `List (String × _)`;
    assignment replaces the entry in place when the key exists, otherwise appends.
  * Asynchronous external results (HTTP responses, user-media capture, roster
    fetches) are explicit parameters of the step functions.
  * `try { ... } catch { log }` blocks are modelled by total functions: a
    fallible host operation returns `Option`, and on `none` the state mutated
    so far is kept and the rest of the block is skipped, as in JS.
  * The signaling-state behaviour of `RTCPeerConnection.setRemoteDescription` /
    `addIceCandidate` follows the W3C WebRTC state machine (an answer is only
    accepted in the have-local-offer state, a candidate only once a remote
    description exists; otherwise the call rejects and the catch swallows it).
-/

namespace ReadQueue

/-! ## Peer mesh data model (AudioManager.js) -/

inductive SignalKind
  | offer
  | answer
  | iceCandidate
deriving DecidableEq, Repr

/-- A signaling envelope as drained from `GET /webrtc/signals/<sessionId>`:
`{ from, type, data }` with `data.sdp` for offer/answer and `data.candidate`
for ICE candidates. -/
structure Signal where
  fromId : String
  kind : SignalKind
  sdp : Option String := none
  candidate : Option String := none
deriving DecidableEq, Repr

/-- W3C RTCPeerConnection signaling states (the ones this client can reach). -/
inductive SigState
  | stable
  | haveLocalOffer
  | haveRemoteOffer
deriving DecidableEq, Repr

/-- One peer connection: descriptions committed so far, received candidates,
whether local tracks were attached at creation time. -/
structure RTCConn where
  signalingState : SigState := .stable
  localDesc : Option String := none
  remoteDesc : Option String := none
  remoteCandidates : List String := []
  tracksAttached : Bool := false
  closed : Bool := false
deriving DecidableEq, Repr

/-- `setRemoteDescription` with an answer: only legal in have-local-offer;
otherwise the promise rejects (InvalidStateError). -/
def RTCConn.setRemoteAnswer (pc : RTCConn) (sdp : String) : Option RTCConn :=
  match pc.signalingState with
  | .haveLocalOffer => some { pc with remoteDesc := some sdp, signalingState := .stable }
  | _ => none

/-- `setRemoteDescription` with an offer: legal in stable or have-remote-offer;
rejects under glare (have-local-offer). -/
def RTCConn.setRemoteOffer (pc : RTCConn) (sdp : String) : Option RTCConn :=
  match pc.signalingState with
  | .stable => some { pc with remoteDesc := some sdp, signalingState := .haveRemoteOffer }
  | .haveRemoteOffer => some { pc with remoteDesc := some sdp }
  | .haveLocalOffer => none

/-- `addIceCandidate`: rejects while no remote description is set. -/
def RTCConn.addCandidate (pc : RTCConn) (c : String) : Option RTCConn :=
  if pc.remoteDesc.isSome then some { pc with remoteCandidates := pc.remoteCandidates ++ [c] }
  else none

/-- A captured audio track (`MediaStreamTrack`): the transmit-enable flag and
whether `stop()` was called. -/
structure AudioTrack where
  enabled : Bool := true
  stopped : Bool := false
deriving DecidableEq, Repr

/-- The AudioManager instance state. `pollingInterval` is the signal-poll
interval handle (`some` = loop running). -/
structure AudioManager where
  sessionId : String
  subGroup : String := ""
  apiUrl : String := ""
  localStream : Option (List AudioTrack) := none
  peerConnections : List (String × RTCConn) := []
  isMuted : Bool := true
  isInitialized : Bool := false
  pollingInterval : Option Nat := none
deriving DecidableEq, Repr

/-- JS object assignment `this.peerConnections[p] = c`: replace in place if the
key exists (JS objects cannot hold duplicate keys), append otherwise. -/
def setConn : List (String × RTCConn) → String → RTCConn → List (String × RTCConn)
  | [], p, c => [(p, c)]
  | e :: rest, p, c => if e.1 = p then (p, c) :: rest else e :: setConn rest p c

/-- Observable effects of the peer-mesh manager: a `POST /webrtc/signal`. -/
inductive AMOutput
  | sendSignal (toSessionId : String) (kind : SignalKind)
      (sdp : Option String) (candidate : Option String)
deriving DecidableEq, Repr

/-- The (opaque) SDP produced by `createOffer` for a given peer. -/
def offerSdp (am : AudioManager) (peerId : String) : String :=
  "offer:" ++ am.sessionId ++ ":" ++ peerId

/-- The (opaque) SDP produced by `createAnswer` for a given peer. -/
def answerSdp (am : AudioManager) (peerId : String) : String :=
  "answer:" ++ am.sessionId ++ ":" ++ peerId

/-- `createPeerConnection(peerId)`: records the connection (keyed by peer id),
attaches local tracks when a stream exists, commits a fresh offer as the local
description and sends it to the peer. -/
def AudioManager.createPeerConnection (am : AudioManager) (peerId : String) :
    AudioManager × List AMOutput :=
  let sdp := offerSdp am peerId
  let pc : RTCConn :=
    { tracksAttached := am.localStream.isSome
      localDesc := some sdp
      signalingState := .haveLocalOffer }
  ({ am with peerConnections := setConn am.peerConnections peerId pc },
   [AMOutput.sendSignal peerId .offer (some sdp) none])

/-- The loop body of `connectToPeers`: for every listed peer that is not self
and has no existing connection, initiate an outbound connection. -/
def AudioManager.connectLoop (am : AudioManager) : List String → AudioManager × List AMOutput
  | [] => (am, [])
  | p :: rest =>
    if p ≠ am.sessionId ∧ (am.peerConnections.lookup p).isNone then
      let r1 := am.createPeerConnection p
      let r2 := r1.1.connectLoop rest
      (r2.1, r1.2 ++ r2.2)
    else am.connectLoop rest

/-- `connectToPeers()`: `roster = none` models a failed or non-2xx roster
fetch (caught and ignored); otherwise process the peer list. -/
def AudioManager.connectToPeers (am : AudioManager) (roster : Option (List String)) :
    AudioManager × List AMOutput :=
  match roster with
  | none => (am, [])
  | some peers => am.connectLoop peers

/-- `handleSignal(signal)`: dispatch by kind. Every failure of a host
operation is caught; mutations made before the failure persist. -/
def AudioManager.handleSignal (am : AudioManager) (s : Signal) :
    AudioManager × List AMOutput :=
  match s.kind with
  | .offer =>
    -- create a responder-side connection if none exists for the sender
    let am1 :=
      match am.peerConnections.lookup s.fromId with
      | some _ => am
      | none =>
        let pc : RTCConn := { tracksAttached := am.localStream.isSome }
        { am with peerConnections := setConn am.peerConnections s.fromId pc }
    match s.sdp with
    | none => (am1, [])
    | some sdp =>
      match (am1.peerConnections.lookup s.fromId).bind (fun pc => pc.setRemoteOffer sdp) with
      | none => (am1, [])
      | some pc1 =>
        -- createAnswer / setLocalDescription(answer) / send the answer back
        let asdp := answerSdp am1 s.fromId
        let pc2 := { pc1 with localDesc := some asdp, signalingState := .stable }
        ({ am1 with peerConnections := setConn am1.peerConnections s.fromId pc2 },
         [AMOutput.sendSignal s.fromId .answer (some asdp) none])
  | .answer =>
    match am.peerConnections.lookup s.fromId with
    | none => (am, [])
    | some pc =>
      match s.sdp with
      | none => (am, [])
      | some sdp =>
        match pc.setRemoteAnswer sdp with
        | none => (am, [])
        | some pc1 => ({ am with peerConnections := setConn am.peerConnections s.fromId pc1 }, [])
  | .iceCandidate =>
    match am.peerConnections.lookup s.fromId with
    | none => (am, [])
    | some pc =>
      match s.candidate with
      | none => (am, [])
      | some c =>
        match pc.addCandidate c with
        | none => (am, [])
        | some pc1 => ({ am with peerConnections := setConn am.peerConnections s.fromId pc1 }, [])

/-- `toggleMute()`: flips the mute flag and re-enables or disables every
local audio track. -/
def AudioManager.toggleMute (am : AudioManager) : AudioManager :=
  let m := !am.isMuted
  { am with
    isMuted := m
    localStream := am.localStream.map (List.map fun t : AudioTrack => { t with enabled := !m }) }

/-- `getMuteState()`. -/
def AudioManager.getMuteState (am : AudioManager) : Bool := am.isMuted

/-- `initialize(startMuted)`. `supported` models the
`navigator.mediaDevices.getUserMedia` capability check; `capture` is the
microphone-capture result (`none` = denied / failed, caught and reported as
`false`); `roster` feeds the initial `connectToPeers` roster fetch. -/
def AudioManager.init (am : AudioManager) (startMuted : Bool)
    (supported : Bool) (capture : Option (List AudioTrack))
    (roster : Option (List String)) :
    Bool × AudioManager × List AMOutput :=
  if !supported then (false, am, [])
  else
    match capture with
    | none => (false, am, [])
    | some tracks =>
      let am :=
        { am with
          localStream := some (tracks.map fun t : AudioTrack => { t with enabled := !startMuted })
          isMuted := startMuted
          isInitialized := true
          pollingInterval := some 1 }
      let r := am.connectToPeers roster
      (true, r.1, r.2)

/-- The manager together with the playback side of the page: `dom` is the list
of ids of `<audio>` elements appended to the document body. -/
structure AMWorld where
  am : AudioManager
  dom : List String := []
deriving DecidableEq, Repr

/-- The `ontrack` handler of a connection: attach an autoplaying `<audio>`
element with id `audio-<peerId>`. -/
def AMWorld.handleRemoteTrack (w : AMWorld) (peerId : String) : AMWorld :=
  if (w.am.peerConnections.lookup peerId).isSome then
    { w with dom := w.dom ++ ["audio-" ++ peerId] }
  else w

/-- `cleanup()`: stop the poll loop, close every peer connection and remove
its `audio-<peerId>` element (`getElementById` removes the first match),
stop and drop the local stream, clear the records. -/
def AMWorld.cleanup (w : AMWorld) : AMWorld :=
  { am :=
      { w.am with
        pollingInterval := none
        peerConnections := []
        localStream := none
        isInitialized := false }
    dom := w.am.peerConnections.foldl (fun d e => d.erase ("audio-" ++ e.1)) w.dom }

/-- Whether a live connection for `p` exists. -/
def hasConn (am : AudioManager) (p : String) : Bool :=
  (am.peerConnections.lookup p).isSome

/-! ## Turn coordinator client (HomePage.js) -/

/-- One `GET /queue/status/<sessionId>` snapshot, replaced wholesale on every
successful poll. -/
structure QueueStatusSnapshot where
  position : Nat := 0
  totalInQueue : Nat := 0
  isPosition1 : Bool := false
  isPosition2 : Bool := false
  position1Name : String := ""
  position2Name : String := ""
deriving DecidableEq, Repr

/-- Contents of the `autoSkipTimeout` ref. `pending` is true while the
scheduled timeout has neither fired nor been cancelled; the callback closes
over `hasStartedReading` and `sessionId` as they were when the timer was
armed. -/
structure TimeoutRec where
  pending : Bool
  capturedHasStarted : Bool
  capturedSessionId : Option String
deriving DecidableEq, Repr

/-- Contents of the `timerInterval` ref (the 1-second countdown display
interval) with its closed-over `secondsLeft` counter. -/
structure IntervalRec where
  active : Bool
  secondsLeft : Nat
deriving DecidableEq, Repr

/-- The HomePage client state (the fields the turn coordinator reads or
writes). A ref that was cleared but never nulled is `some r` with
`r.pending = false` / `r.active = false` — the code distinguishes the two. -/
structure ClientState where
  sessionId : Option String := none
  hasJoined : Bool := false
  queueStatus : Option QueueStatusSnapshot := none
  autoSkipTimer : Nat := 10
  wasPosition2 : Bool := false
  isExpanded : Bool := false
  hasStartedReading : Bool := false
  isMuted : Bool := true
  audioInitialized : Bool := false
  audioManager : Option AudioManager := none
  pollingActive : Bool := false
  autoSkipTimeout : Option TimeoutRec := none
  timerInterval : Option IntervalRec := none
deriving DecidableEq, Repr

inductive QAction
  | start
  | skip
  | finish
deriving DecidableEq, Repr

/-- Observable effects of the client. -/
inductive Output
  | actionRequest (sessionId : String) (action : QAction)
  | toast (msg : String) (kind : String)
  | notifyTurn
deriving DecidableEq, Repr

/-- Outcome of one `fetch` of `GET /queue/status/<sessionId>`. -/
inductive PollResult
  | ok (s : QueueStatusSnapshot)
  | httpError
  | netError
deriving DecidableEq, Repr

/-- `queueStatus?.isPosition1` as the code evaluates it. -/
def snapIsPos1 (st : ClientState) : Bool :=
  (st.queueStatus.map QueueStatusSnapshot.isPosition1).getD false

/-- `queueStatus?.isPosition2` as the code evaluates it. -/
def snapIsPos2 (st : ClientState) : Bool :=
  (st.queueStatus.map QueueStatusSnapshot.isPosition2).getD false

/-- `if (!m) audioManager.current.toggleMute()` after `getMuteState()`. -/
def muteAM (am : AudioManager) : AudioManager :=
  if am.getMuteState then am else am.toggleMute

/-- `if (m) audioManager.current.toggleMute()` after `getMuteState()`. -/
def unmuteAM (am : AudioManager) : AudioManager :=
  if am.getMuteState then am.toggleMute else am

/-- `startAutoSkipTimer()`: clears any previous timers, resets the display to
10, arms a fresh countdown interval and a fresh 10-second timeout whose
callback closes over the current `hasStartedReading` and `sessionId`. -/
def startAutoSkipTimer (st : ClientState) : ClientState :=
  { st with
    autoSkipTimer := 10
    timerInterval := some { active := true, secondsLeft := 10 }
    autoSkipTimeout := some
      { pending := true
        capturedHasStarted := st.hasStartedReading
        capturedSessionId := st.sessionId } }

/-- The queue-position effect (the `useEffect` keyed on
`queueStatus?.isPosition1` / `queueStatus?.isPosition2` / `wasPosition2` /
`hasStartedReading`): expands the action panel, raises the one-shot turn
notification, arms or clears the auto-skip timers, and forces mute when not
at position 1. In the not-position-1 branch the timers are cancelled but the
refs are left non-null, exactly as in the code. -/
def applyEffect (st : ClientState) : ClientState × List Output :=
  let isPos2 := snapIsPos2 st
  let r :=
    if snapIsPos1 st then
      let st := if !st.hasStartedReading then { st with isExpanded := true } else st
      let r0 :=
        if st.wasPosition2 then ({ st with wasPosition2 := false }, [Output.notifyTurn])
        else (st, ([] : List Output))
      let st := r0.1
      let st :=
        if !st.hasStartedReading && st.autoSkipTimeout.isNone then startAutoSkipTimer st
        else if st.hasStartedReading then
          { st with autoSkipTimeout := none, timerInterval := none }
        else st
      (st, r0.2)
    else
      let st :=
        { st with
          autoSkipTimeout := st.autoSkipTimeout.map (fun t => { t with pending := false })
          timerInterval := st.timerInterval.map (fun i => { i with active := false })
          autoSkipTimer := 10
          hasStartedReading := false }
      let st :=
        if st.audioManager.isSome && st.queueStatus.isSome then
          { st with audioManager := st.audioManager.map muteAM, isMuted := true }
        else st
      (st, ([] : List Output))
  let st := if isPos2 then { r.1 with wasPosition2 := true } else r.1
  (st, r.2)

/-- `handleSessionEnd()`: cancel every loop and timer (refs are cleared, not
nulled), clean up and drop the audio manager, and reset the session to the
unauthenticated, unqueued state. -/
def handleSessionEnd (st : ClientState) : ClientState × List Output :=
  ({ st with
      pollingActive := false
      autoSkipTimeout := st.autoSkipTimeout.map (fun t => { t with pending := false })
      timerInterval := st.timerInterval.map (fun i => { i with active := false })
      audioManager := none
      audioInitialized := false
      isMuted := true
      hasJoined := false
      sessionId := none
      queueStatus := none
      isExpanded := false
      hasStartedReading := false },
   [Output.toast "Session ended by Admin" "info"])

/-- `fetchQueueStatus()` (one poll): no-op without a session id; a non-2xx
response invalidates the session; a network error is logged and ignored; a
successful response replaces the snapshot, after which the queue-position
effect runs. -/
def applyPoll (st : ClientState) (r : PollResult) : ClientState × List Output :=
  match st.sessionId with
  | none => (st, [])
  | some _ =>
    match r with
    | .ok s => applyEffect { st with queueStatus := some s }
    | .httpError => handleSessionEnd st
    | .netError => (st, [])

/-- `handleAction(action)`: collapse the panel, cancel and null both timers,
reset the display; for skip/finish mute immediately; then POST the action.
On a non-2xx response the thrown error is caught after the early mutations
(nothing is rolled back). On success, `start` marks reading as started and
unmutes (which re-runs the queue-position effect, whose dependencies include
`hasStartedReading`), and every action ends with a follow-up status fetch. -/
def handleAction (st : ClientState) (a : QAction) (serverOk : Bool) (post : PollResult) :
    ClientState × List Output :=
  match st.sessionId with
  | none => (st, [])
  | some sid =>
    let st := { st with isExpanded := false, autoSkipTimeout := none,
                        timerInterval := none, autoSkipTimer := 10 }
    let st :=
      if (a = QAction.skip ∨ a = QAction.finish) ∧ st.audioManager.isSome then
        { st with audioManager := st.audioManager.map muteAM, isMuted := true }
      else st
    let req := [Output.actionRequest sid a]
    if serverOk then
      match a with
      | .start =>
        let st := { st with hasStartedReading := true }
        let st :=
          if st.audioManager.isSome then
            { st with audioManager := st.audioManager.map unmuteAM, isMuted := false }
          else st
        let r1 := applyEffect st
        let r2 := applyPoll r1.1 post
        (r2.1, req ++ [Output.toast "Started reading session" "success"] ++ r1.2 ++ r2.2)
      | .skip =>
        let r2 := applyPoll st post
        (r2.1, req ++ [Output.toast "Skipped turn - moved to back of queue" "info"] ++ r2.2)
      | .finish =>
        let r2 := applyPoll st post
        (r2.1, req ++ [Output.toast "Finished reading - moved to back of queue" "success"] ++ r2.2)
    else
      (st, req ++ [Output.toast "Failed to process action" "error"])

/-- The auto-skip timeout callback firing at its deadline. The one-shot
timeout is spent (`pending := false`, ref left non-null). The callback bails
out if, as of arming time, reading had started or there was no session;
otherwise it POSTs a skip and on success collapses the panel, shows the
inactivity toast and refetches the status. -/
def autoSkipFireStep (st : ClientState) (t : TimeoutRec) (serverOk : Bool) (post : PollResult) :
    ClientState × List Output :=
  let st := { st with autoSkipTimeout := some { t with pending := false } }
  if t.capturedHasStarted || t.capturedSessionId.isNone then (st, [])
  else
    let req := [Output.actionRequest (t.capturedSessionId.getD "") QAction.skip]
    if serverOk then
      let st := { st with isExpanded := false }
      let r := applyPoll st post
      (r.1, req ++ [Output.toast "Moved to back of queue due to inactivity" "info"] ++ r.2)
    else (st, req)

/-- One tick of the countdown display interval: decrement `secondsLeft`,
publish it, and stop the interval at zero (the ref stays non-null). -/
def intervalTickStep (st : ClientState) (i : IntervalRec) : ClientState :=
  let s := i.secondsLeft - 1
  { st with
    autoSkipTimer := s
    timerInterval := some { active := s ≠ 0, secondsLeft := s } }

/-- `toggleMute()` (the manual mute button). -/
def toggleMuteStep (st : ClientState) : ClientState × List Output :=
  match st.audioManager with
  | none => (st, [])
  | some am =>
    let am1 := am.toggleMute
    ({ st with audioManager := some am1, isMuted := am1.isMuted }, [])

/-- `joinQueue()` after a successful `POST /queue/join`: record the session,
let the polling effect start the status loop, run the initial status fetch,
and if it produced a snapshot initialise audio with
`startMuted = !statusData.isPosition1`. The audio manager reference is
assigned before `initialize` resolves, so it is present even when
initialisation fails. -/
def joinStep (st : ClientState) (sid subGroup : String) (status : PollResult)
    (audioOk : Bool) (roster : Option (List String)) : ClientState × List Output :=
  let st := { st with sessionId := some sid, hasJoined := true, pollingActive := true }
  let r1 := applyPoll st status
  let st := r1.1
  match status with
  | .ok s =>
    let startMuted := !s.isPosition1
    let am0 : AudioManager := { sessionId := sid, subGroup := subGroup }
    let capture : Option (List AudioTrack) := if audioOk then some [{}] else none
    let ri := am0.init startMuted audioOk capture roster
    let st := { st with audioManager := some ri.2.1 }
    let st := if ri.1 then { st with audioInitialized := true, isMuted := startMuted } else st
    (st, r1.2)
  | _ => (st, r1.2)

/-- External events driving the client. Parameters carry the outcomes of the
asynchronous host interactions (HTTP responses, capture grant, roster). -/
inductive Event
  | join (sid subGroup : String) (status : PollResult) (audioOk : Bool)
      (roster : Option (List String))
  | poll (r : PollResult)
  | userAction (a : QAction) (serverOk : Bool) (post : PollResult)
  | toggleMuteBtn
  | autoSkipFire (serverOk : Bool) (post : PollResult)
  | intervalTick
deriving DecidableEq, Repr

/-- One step of the client. `none` means the event cannot occur in this state
(a timer that is not armed cannot fire; buttons that are not rendered cannot
be clicked). -/
def step (st : ClientState) (e : Event) : Option (ClientState × List Output) :=
  match e with
  | .join sid subGroup status audioOk roster =>
    if st.hasJoined then none else some (joinStep st sid subGroup status audioOk roster)
  | .poll r =>
    if st.pollingActive then some (applyPoll st r) else none
  | .userAction a serverOk post =>
    -- the action buttons are rendered only in the expanded position-1 panel:
    -- start/skip while reading has not begun, finish once it has
    if st.isExpanded && snapIsPos1 st &&
        (if a = QAction.finish then st.hasStartedReading else !st.hasStartedReading) then
      some (handleAction st a serverOk post)
    else none
  | .toggleMuteBtn =>
    if st.hasJoined && st.audioInitialized then some (toggleMuteStep st) else none
  | .autoSkipFire serverOk post =>
    match st.autoSkipTimeout with
    | some t => if t.pending then some (autoSkipFireStep st t serverOk post) else none
    | none => none
  | .intervalTick =>
    match st.timerInterval with
    | some i => if i.active then some (intervalTickStep st i, []) else none
    | none => none

/-- Run a list of events, skipping the ones that cannot occur, collecting
outputs. -/
def run (st : ClientState) : List Event → ClientState × List Output
  | [] => (st, [])
  | e :: rest =>
    match step st e with
    | some r =>
      let r2 := run r.1 rest
      (r2.1, r.2 ++ r2.2)
    | none => run st rest

/-- The state the page mounts with. -/
def initState : ClientState := {}

/-- The turn-coordinator state, derived from the latest snapshot and the
local `hasStartedReading` flag. -/
inductive TurnState
  | notInQueue
  | queued
  | position2
  | position1Idle
  | position1Reading
deriving DecidableEq, Repr

/-- Derive the coordinator state of a client. -/
def coordState (st : ClientState) : TurnState :=
  match st.queueStatus with
  | none => .notInQueue
  | some q =>
    if q.isPosition1 then
      if st.hasStartedReading then .position1Reading else .position1Idle
    else if q.isPosition2 then .position2
    else .queued

/-- No armed timer: the auto-skip timeout is not pending and the countdown
interval is not active (cleared-but-non-null refs count as cleared). -/
def noArmedTimers (st : ClientState) : Bool :=
  st.autoSkipTimeout.all (fun t => !t.pending) && st.timerInterval.all (fun i => !i.active)

/-! ## HomePage variant with the Position-2 get-ready timer

Embedding of the snapshot-driven effects of the variant that owns
`startPosition2Timer` / `clearPosition2Timer` (the file with
`POSITION_2_TIMER_DURATION = 30`): the Position-2 effect keyed on
`[queueStatus?.isPosition2, wasPosition2]` and the position-1 effect keyed on
`[queueStatus?.isPosition1]`. Only the state this machinery touches is
modelled. -/

/-- Contents of the `position2TimeoutRef` auto-skip timeout; the callback
closes over `sessionId`. -/
structure P2Timeout where
  pending : Bool
  capturedSessionId : Option String
deriving DecidableEq, Repr

/-- State of the variant page. `p2Interval` is the countdown interval ref
(`some active`); `prevIsPosition1` is the last value of
`queueStatus?.isPosition1` seen by the position-1 effect, used for its
dependency gating (`none` = undefined, before any snapshot). -/
structure V2State where
  sessionId : Option String := none
  queueStatus : Option QueueStatusSnapshot := none
  wasPosition2 : Bool := false
  hasStartedReading : Bool := false
  isMuted : Bool := true
  audioManager : Option AudioManager := none
  position2Timer : Nat := 30
  isPosition2TimerActive : Bool := false
  p2Interval : Option Bool := none
  p2Timeout : Option P2Timeout := none
  prevIsPosition1 : Option Bool := none
deriving DecidableEq, Repr

inductive V2Output
  | p2TimerStarted
  | notifyTurn
deriving DecidableEq, Repr

/-- `POSITION_2_TIMER_DURATION` (seconds). -/
def POSITION_2_TIMER_DURATION : Nat := 30

/-- `clearPosition2Timer()`: clear and null both refs, reset the display,
mark the countdown inactive. -/
def clearPosition2Timer (st : V2State) : V2State :=
  { st with
    p2Interval := none
    p2Timeout := none
    position2Timer := POSITION_2_TIMER_DURATION
    isPosition2TimerActive := false }

/-- `startPosition2Timer()`: clear any existing timer, mark the countdown
active, reset the display, arm the interval and the 30-second auto-skip
timeout (closing over the current session id). -/
def startPosition2Timer (st : V2State) : V2State :=
  let st := clearPosition2Timer st
  { st with
    isPosition2TimerActive := true
    position2Timer := POSITION_2_TIMER_DURATION
    p2Interval := some true
    p2Timeout := some { pending := true, capturedSessionId := st.sessionId } }

/-- Apply one successful queue-status snapshot to the variant page: store it,
run the Position-2 effect (start the get-ready timer on entering position 2,
clear it on leaving; its body re-checks its conditions, so running it on
every snapshot equals the dependency-gated re-runs), then run the position-1
effect, which React re-runs only when `queueStatus?.isPosition1` changed. -/
def v2ApplyStatus (st : V2State) (s : QueueStatusSnapshot) : V2State × List V2Output :=
  let st := { st with queueStatus := some s }
  let r1 :=
    if s.isPosition2 && !st.wasPosition2 then
      (let st := startPosition2Timer st
       ({ st with wasPosition2 := true }, [V2Output.p2TimerStarted]))
    else if !s.isPosition2 && st.wasPosition2 then
      (clearPosition2Timer { st with wasPosition2 := false }, ([] : List V2Output))
    else (st, ([] : List V2Output))
  let st := r1.1
  let r2 :=
    if st.prevIsPosition1 = some s.isPosition1 then (st, ([] : List V2Output))
    else
      let st := { st with prevIsPosition1 := some s.isPosition1 }
      if s.isPosition1 then
        (let st := clearPosition2Timer st
         ({ st with wasPosition2 := false }, [V2Output.notifyTurn]))
      else
        let st := { st with hasStartedReading := false }
        let st :=
          if st.audioManager.isSome && st.queueStatus.isSome then
            { st with audioManager := st.audioManager.map muteAM, isMuted := true }
          else st
        (st, ([] : List V2Output))
  (r2.1, r1.2 ++ r2.2)

/-- Apply a sequence of successful snapshots in order. -/
def v2Run (st : V2State) : List QueueStatusSnapshot → V2State × List V2Output
  | [] => (st, [])
  | s :: rest =>
    let r1 := v2ApplyStatus st s
    let r2 := v2Run r1.1 rest
    (r2.1, r1.2 ++ r2.2)

/-! ## C1 infrastructure: the mute invariant and benign runs -/

/-- The inductive strengthening of the mute invariant: reading can only be in
progress at position 1, the client is unmuted exactly while reading at
position 1, and a live session always has its audio-manager reference. -/
def invC1 (st : ClientState) : Bool :=
  (!st.hasStartedReading || snapIsPos1 st) &&
  ((!st.isMuted) == (snapIsPos1 st && st.hasStartedReading)) &&
  (!st.sessionId.isSome || st.audioManager.isSome)

/-- The events of an execution in which the original invariant can hold:
joins succeed away from position 1 with audio available, the manual mute
button is never pressed, and a `finish` has a successful request and
a successful follow-up fetch reporting that position 1 was given up. All
other events — polls of every outcome, `start`/`skip` with any outcome,
auto-skip firings, ticks — are unrestricted. -/
def benign : Event → Bool
  | .join _ _ status audioOk _ =>
    audioOk &&
      (match status with
       | .ok s => !s.isPosition1
       | _ => false)
  | .toggleMuteBtn => false
  | .userAction a serverOk post =>
    if a = QAction.finish then
      serverOk &&
        (match post with
         | .ok s => !s.isPosition1
         | .httpError => true
         | .netError => false)
    else true
  | _ => true

/-! ## Concrete instances and proof-side helper definitions -/

/-- Whether an output is an outbound offer addressed to `q`. -/
def isOfferTo (q : String) : AMOutput → Bool
  | .sendSignal t k _ _ => t == q && k == SignalKind.offer

/-- Replaying duplicate `answer` envelopes from `p`. -/
def answersFold (am : AudioManager) (p : String) : List String → AudioManager
  | [] => am
  | d :: rest =>
    answersFold (am.handleSignal { fromId := p, kind := SignalKind.answer, sdp := some d }).1 p rest

/-- Whether an output is a `POST /queue/action` with action `skip`. -/
def isSkipRequest : Output → Bool
  | .actionRequest _ QAction.skip => true
  | _ => false

/-- An inactive-but-set interval and a spent-but-set timeout, the shape the
refs take between the countdown finishing and later re-arming. -/
def refsDisarmed (st : ClientState) : Bool :=
  (match st.autoSkipTimeout with
   | some t => !t.pending
   | none => false) &&
  st.timerInterval.all (fun i => !i.active)

def c4am : AudioManager := { sessionId := "me" }

def c4sig : Signal := { fromId := "peer", kind := SignalKind.answer, sdp := some "sdp0" }

def c7am : AudioManager :=
  { sessionId := "me"
    peerConnections :=
      [("peer", { signalingState := SigState.haveLocalOffer, localDesc := some "o" })] }

def c6am : AudioManager :=
  { sessionId := "me"
    peerConnections := [("ghost", { signalingState := SigState.haveLocalOffer })] }

def c9w : AMWorld :=
  { am := { sessionId := "me", peerConnections := [("p", {})] }
    dom := ["audio-p"] }

def c8am : AudioManager := { sessionId := "me", subGroup := "General" }

def queuedSnap : QueueStatusSnapshot := { position := 3, totalInQueue := 4 }

def pos1Snap : QueueStatusSnapshot := { position := 1, totalInQueue := 2, isPosition1 := true }

def pos2Snap : QueueStatusSnapshot := { position := 2, totalInQueue := 2, isPosition2 := true }

def c3snap : QueueStatusSnapshot := { position := 2, totalInQueue := 3, isPosition2 := true }

def c10st : ClientState :=
  { sessionId := some "s1"
    hasJoined := true
    queueStatus := some { position := 1, totalInQueue := 2, isPosition1 := true }
    isExpanded := true
    pollingActive := true
    isMuted := false
    hasStartedReading := true
    audioManager := some { sessionId := "s1", isMuted := false }
    autoSkipTimeout := some { pending := false, capturedHasStarted := false, capturedSessionId := some "s1" } }

def c2st : ClientState :=
  { sessionId := some "s1"
    hasJoined := true
    queueStatus := some { position := 1, totalInQueue := 2, isPosition1 := true }
    isExpanded := true
    pollingActive := true
    audioManager := some { sessionId := "s1" }
    autoSkipTimeout :=
      some { pending := true, capturedHasStarted := false, capturedSessionId := some "s1" }
    timerInterval := some { active := true, secondsLeft := 10 } }

def c5joined : ClientState :=
  (run initState [Event.join "s1" "General" (PollResult.ok queuedSnap) true (some [])]).1

def c1script : List Event :=
  [Event.join "s1" "General" (PollResult.ok queuedSnap) true (some []),
   Event.poll (PollResult.ok pos2Snap),
   Event.poll (PollResult.ok pos1Snap),
   Event.userAction QAction.start true (PollResult.ok pos1Snap),
   Event.userAction QAction.finish true (PollResult.ok queuedSnap)]

/-! ## Lemmas about the connection table -/

theorem lookup_setConn_self (pcs : List (String × RTCConn)) (p : String) (c : RTCConn) :
    (setConn pcs p c).lookup p = some c := by
  induction pcs with
  | nil => simp [setConn, List.lookup]
  | cons e rest ih =>
    rw [setConn]
    by_cases hk : e.1 = p
    · rw [if_pos hk]
      simp [List.lookup]
    · rw [if_neg hk]
      rcases e with ⟨k, v⟩
      have : p ≠ k := fun hh => hk hh.symm
      simp [List.lookup, beq_false_of_ne this, ih]

theorem lookup_setConn_ne (pcs : List (String × RTCConn)) (p q : String) (c : RTCConn)
    (h : q ≠ p) :
    (setConn pcs p c).lookup q = pcs.lookup q := by
  induction pcs with
  | nil => simp [setConn, List.lookup, beq_false_of_ne h]
  | cons e rest ih =>
    rw [setConn]
    by_cases hk : e.1 = p
    · rw [if_pos hk]
      rcases e with ⟨k, v⟩
      simp only at hk
      subst hk
      simp [List.lookup, beq_false_of_ne h]
    · rw [if_neg hk]
      rcases e with ⟨k, v⟩
      by_cases hq : q = k
      · subst hq
        simp [List.lookup]
      · simp [List.lookup, beq_false_of_ne hq, ih]

theorem mem_keys_of_lookup_isSome (pcs : List (String × RTCConn)) (p : String)
    (h : (pcs.lookup p).isSome = true) : p ∈ pcs.map Prod.fst := by
  induction pcs with
  | nil => simp [List.lookup] at h
  | cons e rest ih =>
    rcases e with ⟨k, v⟩
    by_cases hk : p = k
    · simp [hk]
    · have h' : (rest.lookup p).isSome = true := by
        simpa [List.lookup, beq_false_of_ne hk] using h
      simpa using Or.inr (ih h')

theorem lookup_isSome_iff_mem_keys (pcs : List (String × RTCConn)) (p : String) :
    (pcs.lookup p).isSome = true ↔ p ∈ pcs.map Prod.fst := by
  induction pcs with
  | nil => simp [List.lookup]
  | cons e rest ih =>
    rcases e with ⟨k, v⟩
    by_cases hk : p = k
    · subst hk
      simp [List.lookup]
    · simp [List.lookup, beq_false_of_ne hk, hk, ih]

theorem keys_setConn (pcs : List (String × RTCConn)) (p : String) (c : RTCConn) :
    (setConn pcs p c).map Prod.fst =
      if (pcs.lookup p).isSome then pcs.map Prod.fst else pcs.map Prod.fst ++ [p] := by
  induction pcs with
  | nil => simp [setConn, List.lookup]
  | cons e rest ih =>
    rcases e with ⟨k, v⟩
    rw [setConn]
    by_cases hk : k = p
    · subst hk
      simp [List.lookup]
    · rw [if_neg (by simpa using hk)]
      have hbeq : (p == k) = false := beq_false_of_ne (fun hh => hk hh.symm)
      by_cases hA : (rest.lookup p).isSome = true
      · simp [List.lookup, hbeq, hA, ih]
      · simp [List.lookup, hbeq, hA, ih]

/-! ## C4: unmatched answer / ICE candidate envelopes -/

/-- C4: an inbound `answer` or `ice-candidate` envelope whose sender has no
existing peer connection leaves the manager completely unchanged — no entry
is created, nothing is buffered, nothing is sent — and, the embedding being a
total function whose fallible host calls are all caught, no exception escapes
`handleSignal`. -/
theorem c4_unmatched_signal_noop (am : AudioManager) (s : Signal)
    (hk : s.kind = SignalKind.answer ∨ s.kind = SignalKind.iceCandidate)
    (hnone : am.peerConnections.lookup s.fromId = none) :
    am.handleSignal s = (am, []) := by
  rcases hk with h | h <;> simp [AudioManager.handleSignal, h, hnone]

/-- Witness for C4 at a concrete manager and envelope. -/
theorem c4_unmatched_signal_noop_witness :
    (c4sig.kind = SignalKind.answer ∨ c4sig.kind = SignalKind.iceCandidate) ∧
    c4am.peerConnections.lookup c4sig.fromId = none ∧
    c4am.handleSignal c4sig = (c4am, []) :=
  ⟨Or.inl rfl, by decide, c4_unmatched_signal_noop c4am c4sig (Or.inl rfl) (by decide)⟩

theorem answer_noop_of_stable (am : AudioManager) (p d : String) (c : RTCConn)
    (hc : am.peerConnections.lookup p = some c)
    (hs : c.signalingState = SigState.stable) :
    am.handleSignal { fromId := p, kind := SignalKind.answer, sdp := some d } = (am, []) := by
  simp [AudioManager.handleSignal, hc, RTCConn.setRemoteAnswer, hs]

theorem answersFold_noop_of_stable (am : AudioManager) (p : String) (dups : List String)
    (c : RTCConn) (hc : am.peerConnections.lookup p = some c)
    (hs : c.signalingState = SigState.stable) :
    answersFold am p dups = am := by
  induction dups with
  | nil => rfl
  | cons d rest ih =>
    rw [answersFold, answer_noop_of_stable am p d c hc hs]
    exact ih

/-! ## C7: answers are committed exactly once -/

/-- C7: with an outbound offer pending for peer `p` (the connection is in the
offering, have-local-offer role), the first inbound `answer` from `p` commits
its SDP as the remote description and moves the connection to the stable
(negotiated) state, and every subsequent duplicate `answer` leaves the
manager unchanged — the host call rejects, the rejection is caught, and no
exception escapes. -/
theorem c7_answer_committed_once (am : AudioManager) (p sdp : String) (c : RTCConn)
    (hc : am.peerConnections.lookup p = some c)
    (hrole : c.signalingState = SigState.haveLocalOffer) :
    ((am.handleSignal { fromId := p, kind := SignalKind.answer, sdp := some sdp }).1.peerConnections.lookup p =
      some { c with remoteDesc := some sdp, signalingState := SigState.stable }) ∧
    ((am.handleSignal { fromId := p, kind := SignalKind.answer, sdp := some sdp }).2 = []) ∧
    (∀ dups : List String,
      answersFold (am.handleSignal { fromId := p, kind := SignalKind.answer, sdp := some sdp }).1 p dups =
        (am.handleSignal { fromId := p, kind := SignalKind.answer, sdp := some sdp }).1) := by
  have hstep :
      am.handleSignal { fromId := p, kind := SignalKind.answer, sdp := some sdp } =
        ({ am with peerConnections := (setConn am.peerConnections p { c with remoteDesc := some sdp, signalingState := SigState.stable }) }, []) := by
    simp [AudioManager.handleSignal, hc, RTCConn.setRemoteAnswer, hrole]
  refine ⟨?_, ?_, ?_⟩
  · rw [hstep]
    exact lookup_setConn_self _ _ _
  · rw [hstep]
  · intro dups
    apply answersFold_noop_of_stable _ _ _
      ({ c with remoteDesc := some sdp, signalingState := SigState.stable })
    · rw [hstep]
      exact lookup_setConn_self _ _ _
    · rfl

/-- Witness for C7 at a concrete manager with a pending outbound offer. -/
theorem c7_answer_committed_once_witness :
    c7am.peerConnections.lookup "peer" =
      some { signalingState := SigState.haveLocalOffer, localDesc := some "o" } ∧
    ((c7am.handleSignal { fromId := "peer", kind := SignalKind.answer, sdp := some "a" }).1.peerConnections.lookup "peer" =
      some { signalingState := SigState.stable, localDesc := some "o", remoteDesc := some "a" }) ∧
    (answersFold (c7am.handleSignal { fromId := "peer", kind := SignalKind.answer, sdp := some "a" }).1 "peer" ["a", "a"] =
      (c7am.handleSignal { fromId := "peer", kind := SignalKind.answer, sdp := some "a" }).1) := by
  have h := c7_answer_committed_once c7am "peer" "a"
    { signalingState := SigState.haveLocalOffer, localDesc := some "o" } (by decide) rfl
  exact ⟨by decide, h.1, h.2.2 ["a", "a"]⟩

/-! ## C6: roster discovery -/

theorem createPC_hasConn_self (am : AudioManager) (p : String) :
    hasConn (am.createPeerConnection p).1 p = true := by
  simp [hasConn, AudioManager.createPeerConnection, lookup_setConn_self]

theorem createPC_hasConn_other (am : AudioManager) (p q : String) (h : q ≠ p) :
    hasConn (am.createPeerConnection p).1 q = hasConn am q := by
  simp [hasConn, AudioManager.createPeerConnection, lookup_setConn_ne _ _ _ _ h]

theorem createPC_keys_nodup (am : AudioManager) (p : String)
    (hk : (am.peerConnections.map Prod.fst).Nodup)
    (hp : (am.peerConnections.lookup p).isNone = true) :
    ((am.createPeerConnection p).1.peerConnections.map Prod.fst).Nodup := by
  have hnone : (am.peerConnections.lookup p).isSome = false := by
    cases hx : am.peerConnections.lookup p with
    | none => rfl
    | some v => rw [hx] at hp; simp at hp
  rw [AudioManager.createPeerConnection]
  simp only [keys_setConn, hnone, Bool.false_eq_true, if_false]
  rw [List.nodup_append]
  refine ⟨hk, List.nodup_singleton p, ?_⟩
  intro x hx hx1
  rw [List.mem_singleton] at hx1
  subst hx1
  rw [← lookup_isSome_iff_mem_keys] at hx
  rw [hx] at hnone
  exact absurd hnone (by simp)

/-- The full specification of one `connectToPeers` pass over a duplicate-free
roster: connections afterwards are exactly the old ones plus the roster minus
self; an offer goes out exactly to the roster peers that are not self and had
no connection; keys stay duplicate-free; self is unchanged. -/
theorem connectLoop_spec (peers : List String) (am : AudioManager)
    (hnd : peers.Nodup) (hk : (am.peerConnections.map Prod.fst).Nodup) :
    (∀ q, hasConn (am.connectLoop peers).1 q = true ↔
      (hasConn am q = true ∨ (q ∈ peers ∧ q ≠ am.sessionId))) ∧
    (∀ q, (am.connectLoop peers).2.countP (isOfferTo q) =
      (if q ∈ peers ∧ q ≠ am.sessionId ∧ hasConn am q = false then 1 else 0)) ∧
    ((am.connectLoop peers).1.peerConnections.map Prod.fst).Nodup ∧
    (am.connectLoop peers).1.sessionId = am.sessionId := by
  induction peers generalizing am with
  | nil =>
    refine ⟨?_, ?_, hk, rfl⟩
    · intro q
      simp [AudioManager.connectLoop]
    · intro q
      simp [AudioManager.connectLoop]
  | cons p rest ih =>
    have hndr : rest.Nodup := hnd.of_cons
    have hpr : p ∉ rest := by
      have := List.nodup_cons.mp hnd
      exact this.1
    rw [AudioManager.connectLoop]
    by_cases hc : p ≠ am.sessionId ∧ (am.peerConnections.lookup p).isNone
    · rw [if_pos hc]
      have hk1 := createPC_keys_nodup am p hk (by simpa using hc.2)
      have ihh := ih (am.createPeerConnection p).1 hndr hk1
      have hsid : (am.createPeerConnection p).1.sessionId = am.sessionId := rfl
      have hconnNone : hasConn am p = false := by
        simp only [hasConn]
        cases hx : am.peerConnections.lookup p with
        | none => rfl
        | some v =>
          have := hc.2
          rw [hx] at this
          simp at this
      refine ⟨?_, ?_, ihh.2.2.1, by rw [ihh.2.2.2, hsid]⟩
      · intro q
        rw [ihh.1 q, hsid]
        by_cases hq : q = p
        · subst hq
          simp [createPC_hasConn_self, hc.1]
        · rw [createPC_hasConn_other am p q hq]
          constructor
          · rintro (h | ⟨h1, h2⟩)
            · exact Or.inl h
            · exact Or.inr ⟨List.mem_cons_of_mem p h1, h2⟩
          · rintro (h | ⟨h1, h2⟩)
            · exact Or.inl h
            · rcases List.mem_cons.mp h1 with h1 | h1
              · exact absurd h1 hq
              · exact Or.inr ⟨h1, h2⟩
      · intro q
        rw [List.countP_append, ihh.2.1 q, hsid]
        by_cases hq : q = p
        · subst hq
          rw [createPC_hasConn_self]
          simp [AudioManager.createPeerConnection, isOfferTo, hpr, hc.1, hconnNone]
        · have : (am.createPeerConnection p).2.countP (isOfferTo q) = 0 := by
            simp [AudioManager.createPeerConnection, isOfferTo, beq_false_of_ne (fun hh => hq hh.symm)]
          rw [this, createPC_hasConn_other am p q hq]
          have hmem : (q ∈ p :: rest) = (q ∈ rest) := by
            simp [List.mem_cons, hq]
          simp [hmem]
    · rw [if_neg hc]
      have ihh := ih am hndr hk
      rcases not_and_or.mp hc with hc1 | hc2
      · push_neg at hc1
        refine ⟨?_, ?_, ihh.2.2.1, ihh.2.2.2⟩
        · intro q
          rw [ihh.1 q]
          constructor
          · rintro (h | ⟨h1, h2⟩)
            · exact Or.inl h
            · exact Or.inr ⟨List.mem_cons_of_mem p h1, h2⟩
          · rintro (h | ⟨h1, h2⟩)
            · exact Or.inl h
            · rcases List.mem_cons.mp h1 with h1 | h1
              · subst h1
                exact absurd hc1 h2
              · exact Or.inr ⟨h1, h2⟩
        · intro q
          rw [ihh.2.1 q]
          by_cases hq : q = p
          · subst hq
            simp [hpr, hc1]
          · have hmem : (q ∈ p :: rest) = (q ∈ rest) := by
              simp [List.mem_cons, hq]
            simp [hmem]
      · have hsome : hasConn am p = true := by
          simp only [hasConn]
          cases hx : am.peerConnections.lookup p with
          | none => rw [hx] at hc2; simp at hc2
          | some v => rfl
        refine ⟨?_, ?_, ihh.2.2.1, ihh.2.2.2⟩
        · intro q
          rw [ihh.1 q]
          constructor
          · rintro (h | ⟨h1, h2⟩)
            · exact Or.inl h
            · exact Or.inr ⟨List.mem_cons_of_mem p h1, h2⟩
          · rintro (h | ⟨h1, h2⟩)
            · exact Or.inl h
            · rcases List.mem_cons.mp h1 with h1 | h1
              · subst h1
                exact Or.inl hsome
              · exact Or.inr ⟨h1, h2⟩
        · intro q
          rw [ihh.2.1 q]
          by_cases hq : q = p
          · subst hq
            simp [hpr, hsome]
          · have hmem : (q ∈ p :: rest) = (q ∈ rest) := by
              simp [List.mem_cons, hq]
            simp [hmem]

/-- C6 (amended): after one `connectToPeers` pass over a duplicate-free
roster, an outbound connection is initiated exactly for the roster peers that
are not the local session and have no existing connection, and the live
connection set becomes the old set united with the roster minus self — with
at most one connection per peer id. Stale connections to peers that left the
roster are retained, not pruned, so the set does not in general equal the
roster minus self (see the counterexample). -/
theorem c6_discover_peers_amended (am : AudioManager) (peers : List String)
    (hnd : peers.Nodup) (hk : (am.peerConnections.map Prod.fst).Nodup) :
    (∀ q, hasConn (am.connectToPeers (some peers)).1 q = true ↔
      (hasConn am q = true ∨ (q ∈ peers ∧ q ≠ am.sessionId))) ∧
    (∀ q, (am.connectToPeers (some peers)).2.countP (isOfferTo q) =
      (if q ∈ peers ∧ q ≠ am.sessionId ∧ hasConn am q = false then 1 else 0)) ∧
    ((am.connectToPeers (some peers)).1.peerConnections.map Prod.fst).Nodup :=
  ⟨(connectLoop_spec peers am hnd hk).1,
   (connectLoop_spec peers am hnd hk).2.1,
   (connectLoop_spec peers am hnd hk).2.2.1⟩

/-- Counterexample to C6 as stated: a manager holding a connection to a peer
that is no longer in the roster still holds it after `connectToPeers`, so
after the pass the set of live connections (`["ghost"]`) is not the roster
minus self (`[]`) — the set does not converge to exactly "all known peers
minus self" within one signaling-loop interval. -/
theorem c6_discover_peers_counterexample :
    (c6am.connectToPeers (some [])).1.peerConnections.map Prod.fst = ["ghost"] ∧
    ("ghost" ∉ ([] : List String)) ∧
    hasConn (c6am.connectToPeers (some [])).1 "ghost" = true := by
  refine ⟨rfl, by simp, by decide⟩

/-- Witness for the amended C6 at a concrete manager and roster. -/
theorem c6_discover_peers_amended_witness :
    (hasConn (c6am.connectToPeers (some ["me", "q", "ghost"])).1 "q" = true ↔
      (hasConn c6am "q" = true ∨ ("q" ∈ ["me", "q", "ghost"] ∧ "q" ≠ c6am.sessionId))) ∧
    (c6am.connectToPeers (some ["me", "q", "ghost"])).2.countP (isOfferTo "q") =
      (if "q" ∈ ["me", "q", "ghost"] ∧ "q" ≠ c6am.sessionId ∧ hasConn c6am "q" = false
        then 1 else 0) :=
  ⟨((c6_discover_peers_amended c6am ["me", "q", "ghost"] (by decide) (by decide)).1 "q"),
   ((c6_discover_peers_amended c6am ["me", "q", "ghost"] (by decide) (by decide)).2.1 "q")⟩

/-! ## C9: teardown is idempotent -/

theorem not_mem_foldl_erase_of_not_mem (l : List (String × RTCConn)) (d : List String)
    (x : String) (h : x ∉ d) :
    x ∉ l.foldl (fun d e => d.erase ("audio-" ++ e.1)) d := by
  induction l generalizing d with
  | nil => simpa using h
  | cons e rest ih =>
    simp only [List.foldl_cons]
    exact ih _ (fun hm => h (List.mem_of_mem_erase hm))

theorem not_mem_foldl_erase (l : List (String × RTCConn)) (d : List String) (x : String)
    (hd : d.Nodup) (hx : x ∈ l.map (fun e => "audio-" ++ e.1)) :
    x ∉ l.foldl (fun d e => d.erase ("audio-" ++ e.1)) d := by
  induction l generalizing d with
  | nil => simp at hx
  | cons e rest ih =>
    simp only [List.foldl_cons]
    rw [List.map_cons, List.mem_cons] at hx
    rcases hx with hx1 | hx2
    · by_cases hmem : x ∈ rest.map (fun e => "audio-" ++ e.1)
      · exact ih _ (hd.erase _) hmem
      · apply not_mem_foldl_erase_of_not_mem
        rw [hx1]
        intro hm
        exact ((hd.mem_erase_iff).mp hm).1 rfl
    · exact ih _ (hd.erase _) hx2

/-- C9: `cleanup()` is idempotent and safe on a never-initialised manager (it
is a total function of the state): one call empties the connection table,
drops the captured stream, stops the signal-poll loop, clears the initialised
flag, and removes the `audio-<peerId>` playback element of every connected
peer; a second call produces exactly the same state. -/
theorem c9_cleanup_idempotent (w : AMWorld) :
    AMWorld.cleanup (AMWorld.cleanup w) = AMWorld.cleanup w ∧
    (AMWorld.cleanup w).am.peerConnections = [] ∧
    (AMWorld.cleanup w).am.localStream = none ∧
    (AMWorld.cleanup w).am.pollingInterval = none ∧
    (AMWorld.cleanup w).am.isInitialized = false ∧
    (∀ p : String, w.dom.Nodup → hasConn w.am p = true →
      ("audio-" ++ p) ∉ (AMWorld.cleanup w).dom) := by
  refine ⟨rfl, rfl, rfl, rfl, rfl, ?_⟩
  intro p hd hp
  have hmem : ("audio-" ++ p) ∈ w.am.peerConnections.map (fun e => "audio-" ++ e.1) := by
    have := mem_keys_of_lookup_isSome w.am.peerConnections p hp
    exact List.mem_map.mpr (by
      rcases List.mem_map.mp this with ⟨e, he, hfst⟩
      exact ⟨e, he, by rw [hfst]⟩)
  exact not_mem_foldl_erase _ _ _ hd hmem

/-- Witness for C9 at a concrete world with one connection and its playback
element. -/
theorem c9_cleanup_idempotent_witness :
    AMWorld.cleanup (AMWorld.cleanup c9w) = AMWorld.cleanup c9w ∧
    ("audio-" ++ "p") ∉ (AMWorld.cleanup c9w).dom :=
  ⟨(c9_cleanup_idempotent c9w).1,
   (c9_cleanup_idempotent c9w).2.2.2.2.2 "p" (by decide) (by decide)⟩

/-! ## C8: initialize contract -/

theorem connectLoop_preserves_fields (am : AudioManager) (l : List String) :
    (am.connectLoop l).1.localStream = am.localStream ∧
    (am.connectLoop l).1.isMuted = am.isMuted ∧
    (am.connectLoop l).1.isInitialized = am.isInitialized ∧
    (am.connectLoop l).1.pollingInterval = am.pollingInterval ∧
    (am.connectLoop l).1.sessionId = am.sessionId := by
  induction l generalizing am with
  | nil => exact ⟨rfl, rfl, rfl, rfl, rfl⟩
  | cons p rest ih =>
    rw [AudioManager.connectLoop]
    split
    · simpa [AudioManager.createPeerConnection] using ih _
    · exact ih am

/-- C8: `initialize(startMuted)` reports failure (`false`) without touching
the manager when the host lacks WebRTC capture support or capture is denied —
the rejection is caught, so no exception escapes and the rest of the system
continues — and on a successful capture it returns `true`, sets the enabled
flag of every captured audio track to the negation of `startMuted`, records
the mute flag, marks the manager initialised, and starts the signal-poll
loop. -/
theorem c8_initialize_contract (am : AudioManager) (startMuted supported : Bool)
    (capture : Option (List AudioTrack)) (roster : Option (List String)) :
    (supported = false ∨ capture = none →
      (am.init startMuted supported capture roster).1 = false ∧
      (am.init startMuted supported capture roster).2.1 = am) ∧
    (∀ ts, supported = true → capture = some ts →
      (am.init startMuted supported capture roster).1 = true ∧
      (∀ t ∈ (am.init startMuted supported capture roster).2.1.localStream.getD [],
        t.enabled = !startMuted) ∧
      (am.init startMuted supported capture roster).2.1.isMuted = startMuted ∧
      (am.init startMuted supported capture roster).2.1.isInitialized = true ∧
      (am.init startMuted supported capture roster).2.1.pollingInterval.isSome = true) := by
  constructor
  · intro h
    rcases h with h | h
    · subst h
      simp [AudioManager.init]
    · subst h
      cases supported <;> simp [AudioManager.init]
  · intro ts hsup hcap
    subst hsup
    subst hcap
    rcases roster with _ | peers
    · refine ⟨rfl, ?_, rfl, rfl, rfl⟩
      intro t ht
      have ht2 : t ∈ ts.map (fun t : AudioTrack => { t with enabled := !startMuted }) := ht
      rcases List.mem_map.mp ht2 with ⟨t0, _, hmap⟩
      rw [← hmap]
    · have hp := connectLoop_preserves_fields
        { am with
          localStream := some (ts.map fun t : AudioTrack => { t with enabled := !startMuted })
          isMuted := startMuted
          isInitialized := true
          pollingInterval := some 1 } peers
      refine ⟨rfl, ?_, hp.2.1, hp.2.2.1, ?_⟩
      · intro t ht
        rw [show (am.init startMuted true (some ts) (some peers)).2.1.localStream
            = some (ts.map fun t : AudioTrack => { t with enabled := !startMuted }) from hp.1] at ht
        rcases List.mem_map.mp ht with ⟨t0, _, hmap⟩
        rw [← hmap]
      · rw [show (am.init startMuted true (some ts) (some peers)).2.1.pollingInterval
            = some 1 from hp.2.2.2.1]
        rfl

/-- Witness for C8: a denied capture fails without state change; a granted
capture with one live track succeeds with the track enabled. -/
theorem c8_initialize_contract_witness :
    ((c8am.init true true none none).1 = false ∧ (c8am.init true true none none).2.1 = c8am) ∧
    ((c8am.init false true (some [{}]) (some ["me", "q"])).1 = true ∧
      (c8am.init false true (some [{}]) (some ["me", "q"])).2.1.isInitialized = true) := by
  constructor
  · exact (c8_initialize_contract c8am true true none none).1 (Or.inr rfl)
  · have h := (c8_initialize_contract c8am false true (some [{}]) (some ["me", "q"])).2 [{}] rfl rfl
    exact ⟨h.1, h.2.2.2.1⟩

/-! ## C10 / C5: failed actions and session invalidation -/

theorem muteAM_isMuted (m : AudioManager) : (muteAM m).isMuted = true := by
  unfold muteAM AudioManager.getMuteState AudioManager.toggleMute
  by_cases h : m.isMuted <;> simp [h]

/-- C10: for `skip` and `finish`, `handleAction` mutes the local track and
cancels (and nulls) the auto-skip timers before the `POST /queue/action`; on
a non-2xx response the thrown error is caught after those mutations, so
nothing is rolled back: the participant stays muted, the timers stay
cancelled and un-rearmed, the display is reset, and only the error toast is
added — client state has changed even though the action failed. -/
theorem c10_failed_action_keeps_side_effects (st : ClientState) (a : QAction) (sid : String)
    (post : PollResult)
    (ha : a = QAction.skip ∨ a = QAction.finish)
    (hsid : st.sessionId = some sid)
    (hexp : st.isExpanded = true)
    (hpos1 : snapIsPos1 st = true)
    (hhs : st.hasStartedReading = decide (a = QAction.finish))
    (ham : st.audioManager.isSome = true) :
    step st (Event.userAction a false post) = some (handleAction st a false post) ∧
    (handleAction st a false post).1.isMuted = true ∧
    (handleAction st a false post).1.audioManager.all (fun m => m.isMuted) = true ∧
    (handleAction st a false post).1.autoSkipTimeout = none ∧
    (handleAction st a false post).1.timerInterval = none ∧
    (handleAction st a false post).1.autoSkipTimer = 10 ∧
    (handleAction st a false post).1.hasStartedReading = st.hasStartedReading ∧
    (handleAction st a false post).1.queueStatus = st.queueStatus ∧
    (handleAction st a false post).2 =
      [Output.actionRequest sid a, Output.toast "Failed to process action" "error"] := by
  obtain ⟨m, hm⟩ := Option.isSome_iff_exists.mp ham
  rcases ha with ha | ha <;> subst ha <;>
    simp [step, handleAction, hexp, hpos1, hhs, hsid, hm, muteAM_isMuted]

/-- Witness for C10: a reading, unmuted participant whose `finish` request
fails stays muted with both timers nulled. -/
theorem c10_failed_action_keeps_side_effects_witness :
    (handleAction c10st QAction.finish false PollResult.netError).1.isMuted = true ∧
    (handleAction c10st QAction.finish false PollResult.netError).1.autoSkipTimeout = none ∧
    (handleAction c10st QAction.finish false PollResult.netError).2 =
      [Output.actionRequest "s1" QAction.finish,
       Output.toast "Failed to process action" "error"] := by
  have h := c10_failed_action_keeps_side_effects c10st QAction.finish "s1" PollResult.netError
    (Or.inr rfl) rfl rfl (by decide) (by decide) (by decide)
  exact ⟨h.2.1, h.2.2.2.1, h.2.2.2.2.2.2.2.2⟩

/-- C5 (amended): session invalidation happens on the first non-2xx status
response — `fetchQueueStatus` keeps no failure counter — while network errors
are logged and heal on the next tick (the state is untouched); when it
happens it stops the polling loop, disarms the timers, cleans up and drops
the audio manager, and returns the client to the unauthenticated, unqueued
state. -/
theorem c5_first_failure_invalidates (st : ClientState) (sid : String)
    (hpoll : st.pollingActive = true) (hsid : st.sessionId = some sid) :
    step st (Event.poll PollResult.httpError) = some (handleSessionEnd st) ∧
    (handleSessionEnd st).1.hasJoined = false ∧
    (handleSessionEnd st).1.sessionId = none ∧
    (handleSessionEnd st).1.queueStatus = none ∧
    (handleSessionEnd st).1.audioManager = none ∧
    (handleSessionEnd st).1.isMuted = true ∧
    (handleSessionEnd st).1.hasStartedReading = false ∧
    (handleSessionEnd st).1.pollingActive = false ∧
    noArmedTimers (handleSessionEnd st).1 = true ∧
    step st (Event.poll PollResult.netError) = some (st, []) := by
  refine ⟨?_, rfl, rfl, rfl, rfl, rfl, rfl, rfl, ?_, ?_⟩
  · simp [step, hpoll, applyPoll, hsid]
  · simp only [noArmedTimers, handleSessionEnd]
    cases st.autoSkipTimeout <;> cases st.timerInterval <;> simp
  · simp [step, hpoll, applyPoll, hsid]

/-- Counterexample to C5 as stated: from a freshly joined client, a single
non-success status response — not three — already invalidates the session,
tearing everything down. -/
theorem c5_first_failure_invalidates_counterexample :
    c5joined.hasJoined = true ∧ c5joined.sessionId = some "s1" ∧
    (run c5joined [Event.poll PollResult.httpError]).1.hasJoined = false ∧
    (run c5joined [Event.poll PollResult.httpError]).1.sessionId = none ∧
    (run c5joined [Event.poll PollResult.httpError]).1.audioManager = none := by
  refine ⟨by decide, by decide, by decide, by decide, by decide⟩

/-- Witness for the amended C5 at a concrete joined client. -/
theorem c5_first_failure_invalidates_witness :
    step c5joined (Event.poll PollResult.httpError) = some (handleSessionEnd c5joined) ∧
    (handleSessionEnd c5joined).1.sessionId = none ∧
    step c5joined (Event.poll PollResult.netError) = some (c5joined, []) := by
  have h := c5_first_failure_invalidates c5joined "s1" (by decide) (by decide)
  exact ⟨h.1, h.2.2.1, h.2.2.2.2.2.2.2.2.2⟩

theorem run_append (st : ClientState) (l1 l2 : List Event) :
    run st (l1 ++ l2) =
      ((run (run st l1).1 l2).1, (run st l1).2 ++ (run (run st l1).1 l2).2) := by
  induction l1 generalizing st with
  | nil => simp [run]
  | cons e rest ih =>
    rw [List.cons_append]
    cases hs : step st e with
    | none =>
      simp only [run, hs]
      exact ih st
    | some r =>
      simp only [run, hs]
      rw [ih r.1]
      simp [List.append_assoc]

theorem run_ticks (k : Nat) (st : ClientState)
    (hi : st.timerInterval = some { active := true, secondsLeft := k }) (hk : k ≠ 0) :
    run st (List.replicate k Event.intervalTick) =
      ({ st with autoSkipTimer := 0,
                 timerInterval := some { active := false, secondsLeft := 0 } }, []) := by
  induction k generalizing st with
  | zero => exact absurd rfl hk
  | succ m ih =>
    rw [List.replicate_succ]
    have hstep : step st Event.intervalTick = some (intervalTickStep st
        { active := true, secondsLeft := m + 1 }, []) := by
      simp [step, hi]
    by_cases hm : m = 0
    · subst hm
      simp [run, hstep, intervalTickStep]
    · have hi1 : (intervalTickStep st { active := true, secondsLeft := m + 1 }).timerInterval =
          some { active := true, secondsLeft := m } := by
        simp [intervalTickStep, hm]
      have hrec := ih (intervalTickStep st { active := true, secondsLeft := m + 1 }) hi1 hm
      simp only [run, hstep]
      rw [hrec]
      simp [intervalTickStep]

theorem applyEffect_outputs (st : ClientState) :
    (applyEffect st).2 = [] ∨ (applyEffect st).2 = [Output.notifyTurn] := by
  unfold applyEffect
  by_cases h1 : snapIsPos1 st = true
  · by_cases hh : st.hasStartedReading = true <;>
    by_cases h2 : st.wasPosition2 = true <;>
      simp [h1, hh, h2]
  · simp [h1]

theorem applyPoll_no_skip_requests (st : ClientState) (r : PollResult) :
    (applyPoll st r).2.countP isSkipRequest = 0 := by
  unfold applyPoll
  cases hs : st.sessionId with
  | none => rfl
  | some sid =>
    cases r with
    | ok s =>
      rcases applyEffect_outputs { st with queueStatus := some s } with h | h <;>
        rw [hs] at h <;> simp [h, isSkipRequest]
    | httpError => simp [handleSessionEnd, isSkipRequest]
    | netError => rfl

theorem noArmedTimers_of_refsDisarmed (st : ClientState) (h : refsDisarmed st = true) :
    noArmedTimers st = true := by
  unfold refsDisarmed at h
  unfold noArmedTimers
  cases ht : st.autoSkipTimeout with
  | none => rw [ht] at h; simp at h
  | some t =>
    rw [ht] at h
    simp only [Bool.and_eq_true] at h
    simp [h.1, h.2]

theorem applyEffect_disarmed (st : ClientState)
    (hd : refsDisarmed st = true) (hh : st.hasStartedReading = false) :
    noArmedTimers (applyEffect st).1 = true := by
  unfold refsDisarmed at hd
  cases ht : st.autoSkipTimeout with
  | none => rw [ht] at hd; simp at hd
  | some t =>
    rw [ht] at hd
    simp only [Bool.and_eq_true] at hd
    unfold applyEffect
    by_cases h1 : snapIsPos1 st = true
    · by_cases h2 : st.wasPosition2 = true <;>
      by_cases hp2 : snapIsPos2 st = true <;>
        simp [h1, h2, hh, hp2, ht, noArmedTimers, hd.1, hd.2]
    · by_cases ham : (st.audioManager.isSome && st.queueStatus.isSome) = true <;>
      by_cases hp2 : snapIsPos2 st = true <;>
        simp [h1, ham, hp2, noArmedTimers, ht, hd.1] <;>
        cases hti : st.timerInterval <;> simp

theorem handleSessionEnd_disarmed (st : ClientState) :
    noArmedTimers (handleSessionEnd st).1 = true := by
  simp only [noArmedTimers, handleSessionEnd]
  cases st.autoSkipTimeout <;> cases st.timerInterval <;> simp

theorem applyPoll_disarmed (st : ClientState) (r : PollResult)
    (hd : refsDisarmed st = true) (hh : st.hasStartedReading = false) :
    noArmedTimers (applyPoll st r).1 = true := by
  unfold applyPoll
  cases hs : st.sessionId with
  | none => exact noArmedTimers_of_refsDisarmed st hd
  | some sid =>
    cases r with
    | ok s =>
      have hd1 : refsDisarmed { st with queueStatus := some s } = true := hd
      exact applyEffect_disarmed _ hd1 hh
    | httpError => exact handleSessionEnd_disarmed st
    | netError => exact noArmedTimers_of_refsDisarmed st hd

theorem fire_disabled_of_not_pending (st : ClientState) (serverOk : Bool) (post : PollResult)
    (h : st.autoSkipTimeout.all (fun t => !t.pending) = true) :
    step st (Event.autoSkipFire serverOk post) = none := by
  unfold step
  cases ht : st.autoSkipTimeout with
  | none => rfl
  | some t =>
    rw [ht] at h
    simp only [Option.all_some] at h
    simp [show t.pending = false from by simpa using h]

/-! ## C2: the auto-skip timeout fires exactly once -/

/-- C2: with the participant at position 1, reading not started, and the
auto-skip timer armed over a live session (the shape `startAutoSkipTimer`
produces), running the full deadline — the ten countdown ticks followed by
the timeout callback — issues exactly one automatic `skip` action (never
zero: the captured guard passes; never two: the one-shot timeout is spent and
cannot fire again), and afterwards no timer of the coordinator is armed,
whatever the skip response and follow-up status fetch return. -/
theorem c2_auto_skip_fires_exactly_once (st : ClientState) (sid : String)
    (serverOk : Bool) (post : PollResult)
    (hsid : st.sessionId = some sid)
    (hpos1 : snapIsPos1 st = true)
    (hhs : st.hasStartedReading = false)
    (ht : st.autoSkipTimeout =
      some { pending := true, capturedHasStarted := false, capturedSessionId := some sid })
    (hi : st.timerInterval = some { active := true, secondsLeft := 10 }) :
    ((run st (List.replicate 10 Event.intervalTick ++
        [Event.autoSkipFire serverOk post])).2.countP isSkipRequest = 1) ∧
    noArmedTimers (run st (List.replicate 10 Event.intervalTick ++
        [Event.autoSkipFire serverOk post])).1 = true ∧
    (∀ b p, step (run st (List.replicate 10 Event.intervalTick ++
        [Event.autoSkipFire serverOk post])).1 (Event.autoSkipFire b p) = none) := by
  have hticks := run_ticks 10 st hi (by decide)
  rw [run_append, hticks]
  set st10 : ClientState :=
    { st with autoSkipTimer := 0,
              timerInterval := some { active := false, secondsLeft := 0 } } with hst10
  have hfire : step st10 (Event.autoSkipFire serverOk post) =
      some (autoSkipFireStep st10
        { pending := true, capturedHasStarted := false, capturedSessionId := some sid }
        serverOk post) := by
    simp [step, hst10, ht]
  have hrun1 : run st10 [Event.autoSkipFire serverOk post] =
      ((autoSkipFireStep st10
        { pending := true, capturedHasStarted := false, capturedSessionId := some sid }
        serverOk post).1,
       (autoSkipFireStep st10
        { pending := true, capturedHasStarted := false, capturedSessionId := some sid }
        serverOk post).2) := by
    simp [run, hfire]
  rw [hrun1]
  set st11 : ClientState :=
    { st10 with autoSkipTimeout :=
        (some { pending := false, capturedHasStarted := false, capturedSessionId := some sid }) }
    with hst11
  have hd11 : refsDisarmed st11 = true := by
    simp [refsDisarmed, hst11, hst10]
  have hh11 : st11.hasStartedReading = false := hhs
  have hfirestep : autoSkipFireStep st10
      { pending := true, capturedHasStarted := false, capturedSessionId := some sid }
      serverOk post =
      (if serverOk then
        ((applyPoll { st11 with isExpanded := false } post).1,
          [Output.actionRequest sid QAction.skip,
           Output.toast "Moved to back of queue due to inactivity" "info"] ++
          (applyPoll { st11 with isExpanded := false } post).2)
      else (st11, [Output.actionRequest sid QAction.skip])) := by
    cases serverOk <;> simp [autoSkipFireStep, hst11]
  rw [hfirestep]
  have hd12 : refsDisarmed { st11 with isExpanded := false } = true := hd11
  have hh12 : ClientState.hasStartedReading { st11 with isExpanded := false } = false := hhs
  cases serverOk with
  | false =>
    refine ⟨by simp [isSkipRequest], ?_, ?_⟩
    · exact noArmedTimers_of_refsDisarmed st11 hd11
    · intro b p
      apply fire_disabled_of_not_pending
      simp [hst11]
  | true =>
    have hpoll := applyPoll_disarmed { st11 with isExpanded := false } post hd12 hh12
    refine ⟨?_, by simpa using hpoll, ?_⟩
    · simp [List.countP_cons, isSkipRequest, applyPoll_no_skip_requests]
    · intro b p
      apply fire_disabled_of_not_pending
      have := hpoll
      unfold noArmedTimers at this
      simp only [Bool.and_eq_true] at this
      simpa using this.1

/-- Witness for C2 at a concrete armed position-1 client whose auto-skip
request succeeds and whose follow-up fetch reports a queued position. -/
theorem c2_auto_skip_fires_exactly_once_witness :
    ((run c2st (List.replicate 10 Event.intervalTick ++
        [Event.autoSkipFire true (PollResult.ok queuedSnap)])).2.countP isSkipRequest = 1) ∧
    noArmedTimers (run c2st (List.replicate 10 Event.intervalTick ++
        [Event.autoSkipFire true (PollResult.ok queuedSnap)])).1 = true := by
  have h := c2_auto_skip_fires_exactly_once c2st "s1" true (PollResult.ok queuedSnap)
    rfl (by decide) rfl rfl rfl
  exact ⟨h.1, h.2.1⟩

/-! ## C3: the Position-2 get-ready timer is started exactly once -/

theorem v2_first_enter (st : V2State) (s : QueueStatusSnapshot)
    (hw : st.wasPosition2 = false) (h2 : s.isPosition2 = true) (h1 : s.isPosition1 = false) :
    (v2ApplyStatus st s).2 = [V2Output.p2TimerStarted] ∧
    (v2ApplyStatus st s).1.wasPosition2 = true ∧
    (v2ApplyStatus st s).1.isPosition2TimerActive = true := by
  unfold v2ApplyStatus
  simp only [hw, h2, h1, Bool.not_false, Bool.and_true, if_true]
  by_cases hprev : st.prevIsPosition1 = some false
  · simp [hprev, startPosition2Timer, clearPosition2Timer]
  · by_cases ham : st.audioManager.isSome <;>
      simp [hprev, ham, startPosition2Timer, clearPosition2Timer]

theorem v2_no_restart (st : V2State) (s : QueueStatusSnapshot)
    (hw : st.wasPosition2 = true) (h2 : s.isPosition2 = true) (h1 : s.isPosition1 = false) :
    (v2ApplyStatus st s).2 = [] ∧
    (v2ApplyStatus st s).1.wasPosition2 = true ∧
    (v2ApplyStatus st s).1.isPosition2TimerActive = st.isPosition2TimerActive ∧
    (v2ApplyStatus st s).1.p2Interval = st.p2Interval ∧
    (v2ApplyStatus st s).1.p2Timeout = st.p2Timeout := by
  unfold v2ApplyStatus
  simp only [hw, h2, h1, Bool.not_true, Bool.and_false, if_false]
  by_cases hprev : st.prevIsPosition1 = some false
  · simp [hprev]
  · by_cases ham : st.audioManager.isSome <;>
      simp [hprev, ham, startPosition2Timer, clearPosition2Timer]

theorem v2Run_no_restart (snaps : List QueueStatusSnapshot) (st : V2State)
    (hw : st.wasPosition2 = true)
    (hs : ∀ s ∈ snaps, s.isPosition2 = true ∧ s.isPosition1 = false) :
    (v2Run st snaps).2 = [] ∧
    (v2Run st snaps).1.isPosition2TimerActive = st.isPosition2TimerActive := by
  induction snaps generalizing st with
  | nil => exact ⟨rfl, rfl⟩
  | cons s rest ih =>
    have hmem := hs s (List.mem_cons_self s rest)
    have h := v2_no_restart st s hw hmem.1 hmem.2
    have ihh := ih (v2ApplyStatus st s).1 h.2.1
      (fun x hx => hs x (List.mem_cons_of_mem s hx))
    constructor
    · show ((v2ApplyStatus st s).2 ++ (v2Run (v2ApplyStatus st s).1 rest).2) = []
      rw [h.1, ihh.1]
      rfl
    · show (v2Run (v2ApplyStatus st s).1 rest).1.isPosition2TimerActive = st.isPosition2TimerActive
      rw [ihh.2, h.2.2.1]

/-- C3: over any nonempty run of consecutive status snapshots that all report
`isPosition2 = true` (and not position 1), starting from a state not already
marked as position 2, exactly one `startPosition2Timer` call is made — the
`p2TimerStarted` output appears exactly once — and re-entering the state
while the countdown is already active neither restarts nor duplicates it; the
countdown is still active at the end. -/
theorem c3_get_ready_timer_once (st : V2State) (snaps : List QueueStatusSnapshot)
    (hw : st.wasPosition2 = false)
    (hs : ∀ s ∈ snaps, s.isPosition2 = true ∧ s.isPosition1 = false)
    (hne : snaps ≠ []) :
    (v2Run st snaps).2.count V2Output.p2TimerStarted = 1 ∧
    (v2Run st snaps).1.isPosition2TimerActive = true := by
  rcases snaps with _ | ⟨s, rest⟩
  · exact absurd rfl hne
  · have hmem := hs s (List.mem_cons_self s rest)
    have h1 := v2_first_enter st s hw hmem.1 hmem.2
    have h2 := v2Run_no_restart rest (v2ApplyStatus st s).1 h1.2.1
      (fun x hx => hs x (List.mem_cons_of_mem s hx))
    constructor
    · show ((v2ApplyStatus st s).2 ++ (v2Run (v2ApplyStatus st s).1 rest).2).count
        V2Output.p2TimerStarted = 1
      rw [h1.1, h2.1]
      rfl
    · show (v2Run (v2ApplyStatus st s).1 rest).1.isPosition2TimerActive = true
      rw [h2.2, h1.2.2]

/-- Witness for C3: two consecutive position-2 snapshots from the mount state
start exactly one get-ready countdown. -/
theorem c3_get_ready_timer_once_witness :
    (v2Run {} [c3snap, c3snap]).2.count V2Output.p2TimerStarted = 1 ∧
    (v2Run {} [c3snap, c3snap]).1.isPosition2TimerActive = true :=
  c3_get_ready_timer_once {} [c3snap, c3snap] rfl (by decide) (by decide)

/-! ## C1: the mute invariant -/

theorem queueStatus_isSome_of_snapIsPos1 (st : ClientState) (h : snapIsPos1 st = true) :
    st.queueStatus.isSome = true := by
  unfold snapIsPos1 at h
  cases hq : st.queueStatus with
  | none => rw [hq] at h; simp at h
  | some q => rfl

theorem unmuteAM_isSome (o : Option AudioManager) : (o.map unmuteAM).isSome = o.isSome := by
  cases o <;> rfl

theorem muteAM_isSome (o : Option AudioManager) : (o.map muteAM).isSome = o.isSome := by
  cases o <;> rfl

theorem handleSessionEnd_invC1 (st : ClientState) :
    invC1 (handleSessionEnd st).1 = true := by
  simp [handleSessionEnd, invC1, snapIsPos1]

theorem applyEffect_invC1_notPos1 (st1 : ClientState)
    (h1 : snapIsPos1 st1 = false)
    (ham : st1.audioManager.isSome = true) (hq : st1.queueStatus.isSome = true) :
    invC1 (applyEffect st1).1 = true := by
  unfold applyEffect
  by_cases hp2 : snapIsPos2 st1 = true <;>
    simp [h1, hp2, ham, hq, invC1, muteAM_isSome]

theorem applyEffect_fields_pos1 (st1 : ClientState) (h1 : snapIsPos1 st1 = true) :
    (applyEffect st1).1.isMuted = st1.isMuted ∧
    (applyEffect st1).1.hasStartedReading = st1.hasStartedReading ∧
    (applyEffect st1).1.queueStatus = st1.queueStatus ∧
    (applyEffect st1).1.sessionId = st1.sessionId ∧
    (applyEffect st1).1.audioManager = st1.audioManager := by
  unfold applyEffect
  by_cases hh : st1.hasStartedReading = true <;>
  by_cases h2 : st1.wasPosition2 = true <;>
  by_cases hp2 : snapIsPos2 st1 = true <;>
  by_cases hto : st1.autoSkipTimeout.isNone = true <;>
    simp [h1, hh, h2, hp2, hto, startAutoSkipTimer]

theorem applyEffect_invC1 (st1 : ClientState)
    (hmu : (!st1.isMuted) = st1.hasStartedReading)
    (ham : st1.audioManager.isSome = true) (hq : st1.queueStatus.isSome = true) :
    invC1 (applyEffect st1).1 = true := by
  by_cases h1 : snapIsPos1 st1 = true
  · obtain ⟨f1, f2, f3, f4, f5⟩ := applyEffect_fields_pos1 st1 h1
    unfold invC1 snapIsPos1
    rw [f1, f2, f3, f4, f5]
    simp only [snapIsPos1] at h1
    simp [h1, ham, hmu]
  · exact applyEffect_invC1_notPos1 st1 (by simpa using h1) ham hq

theorem invC1_fields (st st' : ClientState)
    (h1 : st'.hasStartedReading = st.hasStartedReading)
    (h2 : st'.isMuted = st.isMuted)
    (h3 : st'.queueStatus = st.queueStatus)
    (h4 : st'.sessionId = st.sessionId)
    (h5 : st'.audioManager.isSome = st.audioManager.isSome)
    (h : invC1 st = true) : invC1 st' = true := by
  unfold invC1 snapIsPos1 at h ⊢
  rw [h1, h2, h3, h4, h5]
  exact h

theorem applyPoll_invC1 (st : ClientState) (r : PollResult) (h : invC1 st = true) :
    invC1 (applyPoll st r).1 = true := by
  unfold applyPoll
  cases hs : st.sessionId with
  | none => exact h
  | some sid =>
    cases r with
    | ok s =>
      have hsp := h
      simp only [invC1, Bool.and_eq_true] at hsp
      obtain ⟨⟨hA, hB⟩, hC⟩ := hsp
      have ham : st.audioManager.isSome = true := by
        rw [hs] at hC
        simpa using hC
      have hmu : (!st.isMuted) = st.hasStartedReading := by
        cases hhs : st.hasStartedReading <;> cases hpp : snapIsPos1 st <;>
          rw [hhs, hpp] at hA hB <;> simp_all
      apply applyEffect_invC1
      · simpa using hmu
      · simpa using ham
      · rfl
    | httpError => exact handleSessionEnd_invC1 st
    | netError => exact h

theorem joinStep_invC1 (st : ClientState) (sid subGroup : String)
    (s : QueueStatusSnapshot) (roster : Option (List String))
    (hs1 : s.isPosition1 = false) :
    invC1 (joinStep st sid subGroup (PollResult.ok s) true roster).1 = true := by
  unfold joinStep applyPoll applyEffect
  by_cases hp2 : s.isPosition2 = true <;>
  by_cases ham : st.audioManager.isSome = true <;>
    simp [hs1, hp2, ham, invC1, snapIsPos1, snapIsPos2, AudioManager.init]

theorem fire_invC1 (st : ClientState) (t : TimeoutRec) (serverOk : Bool) (post : PollResult)
    (h : invC1 st = true) :
    invC1 (autoSkipFireStep st t serverOk post).1 = true := by
  unfold autoSkipFireStep
  by_cases hg : (t.capturedHasStarted || t.capturedSessionId.isNone) = true
  · simp only [hg, if_true]
    exact invC1_fields st _ rfl rfl rfl rfl rfl h
  · simp only [hg, if_false]
    cases serverOk with
    | false =>
      simp only [Bool.false_eq_true, if_false]
      exact invC1_fields st _ rfl rfl rfl rfl rfl h
    | true =>
      simp only [if_true]
      apply applyPoll_invC1
      exact invC1_fields st _ rfl rfl rfl rfl rfl h

theorem handleAction_invC1 (st : ClientState) (a : QAction) (serverOk : Bool)
    (post : PollResult) (h : invC1 st = true)
    (hexp : snapIsPos1 st = true)
    (hguard : (if a = QAction.finish then st.hasStartedReading else !st.hasStartedReading) = true)
    (hb : benign (Event.userAction a serverOk post) = true) :
    invC1 (handleAction st a serverOk post).1 = true := by
  unfold handleAction
  cases hs : st.sessionId with
  | none => exact h
  | some sid =>
    have ham : st.audioManager.isSome = true := by
      have hsp := h
      simp only [invC1, Bool.and_eq_true] at hsp
      have h3 := hsp.2
      rw [hs] at h3
      simpa using h3
    have hq : st.queueStatus.isSome = true := queueStatus_isSome_of_snapIsPos1 st hexp
    cases a with
    | start =>
      have hhs : st.hasStartedReading = false := by simpa using hguard
      cases serverOk with
      | false =>
        simp only [Bool.false_eq_true, if_false]
        refine invC1_fields st _ ?_ ?_ ?_ ?_ ?_ h <;> simp [ham, hs]
      | true =>
        simp only [if_true]
        apply applyPoll_invC1
        apply applyEffect_invC1 <;> simp [ham, hq, unmuteAM_isSome]
    | skip =>
      have hhs : st.hasStartedReading = false := by simpa using hguard
      have hmid : invC1
          { st with
            isExpanded := false
            autoSkipTimeout := none
            timerInterval := none
            autoSkipTimer := 10
            audioManager := st.audioManager.map muteAM
            isMuted := true } = true := by
        simp [invC1, hhs, ham, muteAM_isSome]
      cases serverOk with
      | false =>
        simp only [Bool.false_eq_true, if_false]
        simpa [ham, hs] using hmid
      | true =>
        simp only [if_true]
        have hfin := applyPoll_invC1
          { st with
            isExpanded := false
            autoSkipTimeout := none
            timerInterval := none
            autoSkipTimer := 10
            audioManager := st.audioManager.map muteAM
            isMuted := true } post hmid
        simpa [ham, hs] using hfin
    | finish =>
      have hbf := hb
      simp [benign] at hbf
      obtain ⟨hok, hpost⟩ := hbf
      subst hok
      simp only [if_true]
      cases post with
      | netError => simp at hpost
      | httpError =>
        have hgen : ∀ st1 : ClientState, st1.sessionId = some sid →
            invC1 (applyPoll st1 PollResult.httpError).1 = true := by
          intro st1 h1
          unfold applyPoll
          rw [h1]
          exact handleSessionEnd_invC1 st1
        exact hgen _ (by simp [hs, ham])
      | ok s =>
        have hs1 : s.isPosition1 = false := by simpa using hpost
        have hgen : ∀ st1 : ClientState, st1.sessionId = some sid →
            st1.audioManager.isSome = true →
            invC1 (applyPoll st1 (PollResult.ok s)).1 = true := by
          intro st1 h1 h2
          unfold applyPoll
          rw [h1]
          apply applyEffect_invC1_notPos1
          · simp [snapIsPos1, hs1]
          · simpa using h2
          · rfl
        exact hgen _ (by simp [hs, ham]) (by simp [ham, muteAM_isSome])

theorem tick_invC1 (st : ClientState) (i : IntervalRec) (h : invC1 st = true) :
    invC1 (intervalTickStep st i) = true :=
  invC1_fields st _ rfl rfl rfl rfl rfl h

theorem step_invC1 (st : ClientState) (e : Event) (h : invC1 st = true)
    (hb : benign e = true) (r : ClientState × List Output) (hr : step st e = some r) :
    invC1 r.1 = true := by
  cases e with
  | join sid subGroup status audioOk roster =>
    simp only [benign, Bool.and_eq_true] at hb
    obtain ⟨hok, hst⟩ := hb
    subst hok
    cases status with
    | ok s =>
      have hs1 : s.isPosition1 = false := by simpa using hst
      simp only [step] at hr
      by_cases hj : st.hasJoined = true
      · rw [if_pos hj] at hr; exact absurd hr (by simp)
      · rw [if_neg hj] at hr
        injection hr with hr
        rw [← hr]
        exact joinStep_invC1 st sid subGroup s roster hs1
    | httpError => simp at hst
    | netError => simp at hst
  | poll r0 =>
    simp only [step] at hr
    by_cases hp : st.pollingActive = true
    · rw [if_pos hp] at hr
      injection hr with hr
      rw [← hr]
      exact applyPoll_invC1 st r0 h
    · rw [if_neg hp] at hr; exact absurd hr (by simp)
  | userAction a serverOk post =>
    simp only [step] at hr
    by_cases hg : (st.isExpanded && snapIsPos1 st &&
        (if a = QAction.finish then st.hasStartedReading else !st.hasStartedReading)) = true
    · rw [if_pos hg] at hr
      injection hr with hr
      rw [← hr]
      have hg2 := hg
      simp only [Bool.and_eq_true] at hg2
      exact handleAction_invC1 st a serverOk post h hg2.1.2 hg2.2 hb
    · rw [if_neg hg] at hr; exact absurd hr (by simp)
  | toggleMuteBtn => simp [benign] at hb
  | autoSkipFire serverOk post =>
    simp only [step] at hr
    split at hr
    · split at hr
      · injection hr with hr
        rw [← hr]
        exact fire_invC1 st _ serverOk post h
      · simp at hr
    · simp at hr
  | intervalTick =>
    simp only [step] at hr
    split at hr
    · split at hr
      · injection hr with hr
        rw [← hr]
        exact tick_invC1 st _ h
      · simp at hr
    · simp at hr

theorem run_invC1 (evs : List Event) (st : ClientState) (h : invC1 st = true)
    (hb : ∀ e ∈ evs, benign e = true) : invC1 (run st evs).1 = true := by
  induction evs generalizing st with
  | nil => exact h
  | cons e rest ih =>
    have hbe := hb e (List.mem_cons_self e rest)
    have hbr : ∀ x ∈ rest, benign x = true := fun x hx => hb x (List.mem_cons_of_mem e hx)
    cases hs : step st e with
    | none =>
      simp only [run, hs]
      exact ih st h hbr
    | some r =>
      simp only [run, hs]
      exact ih r.1 (step_invC1 st e h hbe r hs) hbr

theorem invC1_mute_iff (st : ClientState) (h : invC1 st = true) :
    (st.isMuted = false ↔ coordState st = TurnState.position1Reading) := by
  simp only [invC1, Bool.and_eq_true, beq_iff_eq] at h
  obtain ⟨⟨h1, h2⟩, _⟩ := h
  unfold coordState
  cases hq : st.queueStatus with
  | none =>
    simp only [snapIsPos1, hq, Option.map_none, Option.getD_none, Bool.false_and] at h2
    constructor
    · intro hm
      rw [hm] at h2
      simp at h2
    · intro hc
      simp at hc
  | some q =>
    simp only [snapIsPos1, hq, Option.map_some', Option.getD_some] at h2
    cases hp1 : q.isPosition1 with
    | false =>
      rw [hp1] at h2
      simp only [Bool.false_and] at h2
      constructor
      · intro hm
        rw [hm] at h2
        simp at h2
      · intro hc
        by_cases hp2 : q.isPosition2 = true <;> simp [hp1, hp2] at hc
    | true =>
      rw [hp1] at h2
      simp only [Bool.true_and] at h2
      cases hhs : st.hasStartedReading with
      | true =>
        rw [hhs] at h2
        constructor
        · intro _
          simp [hp1, hhs]
        · intro _
          simpa using h2
      | false =>
        rw [hhs] at h2
        constructor
        · intro hm
          rw [hm] at h2
          simp at h2
        · intro hc
          simp [hp1, hhs] at hc

/-- C1 (amended): along every benign run from the mount state — joins succeed
away from position 1 with audio available, no manual mute toggling, and every
`finish` completes with a follow-up snapshot that has left position 1 — the
local mute flag is false exactly when the derived turn-coordinator state is
Position1Reading, after every step. The unrestricted claim is false: a manual
mute toggle, or a join that lands directly on position 1 (which initialises
audio unmuted in the Position1Idle state), breaks the equivalence — see the
counterexample. -/
theorem c1_mute_iff_reading_amended (evs : List Event)
    (hb : ∀ e ∈ evs, benign e = true) :
    ((run initState evs).1.isMuted = false ↔
      coordState (run initState evs).1 = TurnState.position1Reading) :=
  invC1_mute_iff _ (run_invC1 evs initState (by decide) hb)

/-- Counterexample to C1 as stated: joining while already at position 1
initialises audio with `startMuted = !isPosition1 = false`, so the client
ends up unmuted while the coordinator is in Position1Idle — reading has not
started — violating the claimed equivalence on a reachable state. -/
theorem c1_mute_iff_reading_counterexample :
    (run initState [Event.join "s1" "General" (PollResult.ok pos1Snap) true (some [])]).1.isMuted
      = false ∧
    coordState (run initState
      [Event.join "s1" "General" (PollResult.ok pos1Snap) true (some [])]).1
      = TurnState.position1Idle := by
  refine ⟨by decide, by decide⟩

/-- Witness for the amended C1 on the scripted sequence Queued → Position2 →
Position1Idle → (start) Position1Reading → (finish) Queued. -/
theorem c1_mute_iff_reading_amended_witness :
    (∀ e ∈ c1script, benign e = true) ∧
    ((run initState c1script).1.isMuted = false ↔
      coordState (run initState c1script).1 = TurnState.position1Reading) :=
  ⟨by decide, c1_mute_iff_reading_amended c1script (by decide)⟩

end ReadQueue
